import Mathlib

/-!
# Verification of the `phpboyscout/config` layered-configuration library

Shallow embedding of the Go sources (`load.go`, `container.go`, the
observer and container-constructor files) into Lean 4, together with
proofs about the claims of the specification.

External collaborators (the viper settings store, the afero filesystem,
the JSON encoder, the logger) are not part of the repository's sources;
where a claim depends on them they are modelled from the specification's
description of those capabilities, and this is stated at the definition.
-/

namespace Config

/-! ## The settings tree

The merged configuration data held by the settings store: a nested
string-keyed tree with scalar leaves.  Scalar values are represented by
their string rendering, which is enough for every claim (no claim
distinguishes scalar types at the merge level). -/

mutual

inductive ConfigTree where
  | leaf (v : String)
  | node (children : ConfigForest)

inductive ConfigForest where
  | nil
  | cons (key : String) (t : ConfigTree) (rest : ConfigForest)

end

/-- First binding of a key in a forest (association-list lookup). -/
def ConfigForest.lookup : ConfigForest → String → Option ConfigTree
  | .nil, _ => none
  | .cons k t rest, key => if k = key then some t else rest.lookup key

def ConfigForest.hasKey (f : ConfigForest) (k : String) : Bool :=
  (f.lookup k).isSome

def ConfigForest.append : ConfigForest → ConfigForest → ConfigForest
  | .nil, g => g
  | .cons k t rest, g => .cons k t (rest.append g)

/-- Entries of the first forest whose key is not bound in the second. -/
def ConfigForest.filterKeysNotIn : ConfigForest → ConfigForest → ConfigForest
  | .nil, _ => .nil
  | .cons k t rest, f1 =>
      if f1.hasKey k then rest.filterKeysNotIn f1
      else .cons k t (rest.filterKeysNotIn f1)

mutual

/-- Modelled from the spec: the settings store's merge
("last-loaded source wins for any key it defines, all other keys inherit
from earlier sources (deep merge, not full overwrite — only leaf values
at conflicting paths are replaced, non-conflicting sibling keys
survive)").  The store (viper) is external to the repository's sources.
`t1.merge t2` layers the later source `t2` on top of `t1`: when both
sides are maps the merge recurses key by key, otherwise the later value
replaces the earlier one. -/
def ConfigTree.merge : ConfigTree → ConfigTree → ConfigTree
  | .node f1, .node f2 =>
      .node ((ConfigForest.mergeOver f1 f2).append (f2.filterKeysNotIn f1))
  | _, t2 => t2

/-- For every entry of the earlier forest `f1`, merge the later forest's
binding for that key on top of it (keep it unchanged when the later
forest does not bind the key). -/
def ConfigForest.mergeOver : ConfigForest → ConfigForest → ConfigForest
  | .nil, _ => .nil
  | .cons k t rest, f2 =>
      .cons k (match f2.lookup k with
               | some t2 => ConfigTree.merge t t2
               | none => t)
        (ConfigForest.mergeOver rest f2)

end

/-- Value of the leaf at a dotted path (given as its segment list). -/
def ConfigTree.getPath : ConfigTree → List String → Option String
  | .leaf v, [] => some v
  | .leaf _, _ :: _ => none
  | .node _, [] => none
  | .node f, k :: p =>
      match f.lookup k with
      | some t => t.getPath p
      | none => none

/-- Subtree located at a path (the whole tree for the empty path). -/
def ConfigTree.getSub : ConfigTree → List String → Option ConfigTree
  | t, [] => some t
  | .leaf _, _ :: _ => none
  | .node f, k :: p =>
      match f.lookup k with
      | some t => t.getSub p
      | none => none

/-- `t.covers p` holds when layering `t` on top of another source
replaces whatever that source held at path `p`: the path meets a value
of `t` (possibly at a proper path position, a leaf cutting the path
short, or any value at the full path). -/
def ConfigTree.covers : ConfigTree → List String → Bool
  | _, [] => true
  | .leaf _, _ :: _ => true
  | .node f, k :: p =>
      match f.lookup k with
      | some t => t.covers p
      | none => false

/-- Left fold of `merge` over an ordered list of later sources. -/
def mergeAll (base : ConfigTree) (ts : List ConfigTree) : ConfigTree :=
  ts.foldl ConfigTree.merge base

/-- Last source of the list that covers path `p`, if any. -/
def lastCovering (p : List String) : List ConfigTree → Option ConfigTree
  | [] => none
  | t :: ts =>
      match lastCovering p ts with
      | some u => some u
      | none => if t.covers p then some t else none

/-- The empty settings tree (a store holding no keys / only defaults). -/
def emptyTree : ConfigTree := .node .nil

/-! ## External capabilities

Filesystem, embedded assets, log output and the JSON encoder, as the
spec describes them (they are external collaborators, not repository
code). -/

/-- Filesystem capability: `stat` is the existence check used by `Load`
(`fs.Stat`), `read` is "open the configured file and parse it in the
configured format", as performed by the store's read/merge operations; a
missing or malformed file is a `.error`.  Parsing itself is external, so
a file is modelled by the outcome of reading it. -/
structure Fs where
  stat : String → Bool
  read : String → Except String ConfigTree

/-- A byte-reader source (`io.Reader` over config bytes): modelled by
the outcome of parsing its bytes in the configured format (the parser is
external to the repository). -/
abbrev ReaderSrc := Except String ConfigTree

/-- `EmbeddedFileReader` from `load.go`: `ReadFile(name)` yields the
file's bytes or an error. -/
structure EmbeddedFileReader where
  readFile : String → Except String ReaderSrc

/-- One structured log record emitted through the `slog` logger. -/
inductive LogEntry where
  | debug (msg : String)
  | info (msg : String)
  | warn (msg : String)
  | error (msg : String)
deriving DecidableEq, Repr

/-- Errors as Go `error` values: the sentinel `ErrNoFilesFound`, an
underlying error from a capability, or `errors.WrapPrefix` wrapping. -/
inductive GoError where
  | noFilesFound
  | base (msg : String)
  | wrapped (msg : String) (inner : GoError)
deriving DecidableEq, Repr

/-! ## The settings store (viper), modelled from the spec

The store is an external collaborator ("treated as an opaque settings
store"); its operations used by the repository are modelled from the
spec's description in sections 3 and 6: replace-on-read, deep merge on
merge-read, current-source tracking, subtree extraction, and a
watch/notify primitive armed on the currently configured source. -/

structure Viper where
  fs : Fs
  config : ConfigTree
  configType : Option String
  configFile : Option String
  watching : Bool
  watchTarget : Option String

/-- `viper.New()` with the fs installed by `initContainer` (`SetFs`).
`AutomaticEnv`, `SetEnvKeyReplacer` and `SetTypeByDefaultValue` concern
only typed-accessor resolution, which no claim touches, and are not
carried in the model state. -/
def viperNew (fs : Fs) : Viper :=
  { fs := fs
    config := emptyTree
    configType := none
    configFile := none
    watching := false
    watchTarget := none }

def Viper.setConfigFile (v : Viper) (f : String) : Viper :=
  { v with configFile := some f }

def Viper.setConfigType (v : Viper) (t : String) : Viper :=
  { v with configType := some t }

/-- `viper.ReadInConfig`: read and parse the configured file; on success
the store's data is replaced, on failure the store is unchanged (it
keeps holding only defaults, here: the empty tree) and the error is
returned. -/
def Viper.readInConfig (v : Viper) : Viper × Option String :=
  match v.configFile with
  | none => (v, some "config file not set")
  | some f =>
      match v.fs.read f with
      | .ok t => ({ v with config := t }, none)
      | .error e => (v, some e)

/-- `viper.MergeInConfig`: read and parse the configured file; on
success the result is deep-merged on top of the current data, on
failure the store is unchanged and the error is returned. -/
def Viper.mergeInConfig (v : Viper) : Viper × Option String :=
  match v.configFile with
  | none => (v, some "config file not set")
  | some f =>
      match v.fs.read f with
      | .ok t => ({ v with config := v.config.merge t }, none)
      | .error e => (v, some e)

/-- `viper.ReadConfig(reader)`: parse the reader's bytes, replacing the
store's data on success. -/
def Viper.readConfig (v : Viper) (r : ReaderSrc) : Viper × Option String :=
  match r with
  | .ok t => ({ v with config := t }, none)
  | .error e => (v, some e)

/-- `viper.MergeConfig(reader)`: parse the reader's bytes and deep-merge
them on top of the store's data. -/
def Viper.mergeConfig (v : Viper) (r : ReaderSrc) : Viper × Option String :=
  match r with
  | .ok t => ({ v with config := v.config.merge t }, none)
  | .error e => (v, some e)

/-- `viper.WatchConfig` (together with `OnConfigChange`): arm the
watch/notify primitive on the currently configured source ("subscribe to
change events" for the store's current file). -/
def Viper.watchConfigArm (v : Viper) : Viper :=
  { v with watching := true, watchTarget := v.configFile }

/-- Splits a key's characters at every dot. -/
def splitDotAux : List Char → List Char → List String
  | [], acc => [String.mk acc.reverse]
  | c :: rest, acc =>
      if c = '.' then String.mk acc.reverse :: splitDotAux rest []
      else splitDotAux rest (c :: acc)

/-- Dotted key to its segment list ("a.b.c" addresses nested maps). -/
def parseKey (k : String) : List String := splitDotAux k.toList []

/-- Modelled from the spec: the store's subtree extraction
(`Sub(key) -> store`); "Sub(key) on a nonexistent key yields an
independent empty store (not an error)".  When the key addresses a map,
the result is an independent store holding that map; otherwise it is an
independent empty store. -/
def Viper.sub (v : Viper) (key : String) : Viper :=
  match v.config.getSub (parseKey key) with
  | some (.node f) => { viperNew v.fs with config := .node f }
  | _ => viperNew v.fs

/-! ## The Container (`container.go`) -/

/-- Observers are opaque capabilities ("run with container and error
channel"); the container invokes them uniformly, so an observer is
identified by an opaque tag. -/
abbrev Observable := Nat

/-- `Container` from `container.go`: identity string, settings store
pointer (`*viper.Viper`, hence possibly nil), shared logger reference,
observer list. -/
structure Container where
  ID : String
  viper : Option Viper
  logger : Nat
  observers : List Observable

/-- `Container.Sub`: wrap the store's subtree rooted at `key`; identity
is parent identity, "#", key; same logger; fresh empty observer list.
(The Go code calls `c.viper.Sub(key)` on its store pointer; `Option.map`
mirrors the dereference.) -/
def Container.sub (c : Container) (key : String) : Container :=
  { ID := c.ID ++ "#" ++ key
    viper := c.viper.map (fun v => v.sub key)
    logger := c.logger
    observers := [] }

/-- `Container.AddObserver`: append to the observer list.  The Go slice
backing a container's observers starts as a fresh `make([]Observable, 0)`,
so appends never alias another container's list. -/
def Container.addObserver (c : Container) (o : Observable) : Container :=
  { c with observers := c.observers ++ [o] }

/-- `Container.AddObserverFunc`: wrap the function in an `Observer`
value and append; the wrapper presents the same capability, so at this
abstraction it normalizes to the same append. -/
def Container.addObserverFunc (c : Container) (o : Observable) : Container :=
  c.addObserver o

/-- `handleReadFileError`: both branches (file-not-found and any other
read error) log a warning; nothing is returned or re-raised. -/
def handleReadFileError : Option String → List LogEntry
  | some e => [.warn e]
  | none => []

/-- The settings tree held by a container's store (empty when the store
pointer is nil; constructed containers always carry a store). -/
def Container.configOf (c : Container) : ConfigTree :=
  match c.viper with
  | some v => v.config
  | none => emptyTree

/-- The JSON encoder capability (`json.Marshal`), external: serializes a
settings tree or fails. -/
structure JsonEncoder where
  marshal : ConfigTree → Except String String

/-- `Container.ToJSON`: marshal `AllSettings()`; on failure log an error
and still return the (empty) string made from the nil byte slice. -/
def Container.toJSON (c : Container) (enc : JsonEncoder) : String × List LogEntry :=
  match c.viper with
  | none => ("", [])
  | some v =>
      match enc.marshal v.config with
      | .ok s => (s, [])
      | .error e => ("", [.error ("unable to marshal config to YAML " ++ e)])

/-! ## Container constructors -/

/-- `initContainer`: empty identity, fresh store with the fs installed,
the given logger, empty observer list. -/
def initContainer (l : Nat) (fs : Fs) : Container :=
  { ID := ""
    viper := some (viperNew fs)
    logger := l
    observers := [] }

/-- Accumulator for the subsequent-files loop of `NewFilesContainer`:
the identity built so far, the store, and the log emitted so far. -/
structure FilesAcc where
  id : String
  v : Viper
  log : List LogEntry

/-- One iteration of `NewFilesContainer`'s loop over `configFiles[1:]`:
extend the identity, point the store at the file, merge it in, and route
any error through `handleReadFileError`. -/
def filesStep (acc : FilesAcc) (f : String) : FilesAcc :=
  let r := (acc.v.setConfigFile f).mergeInConfig
  { id := acc.id ++ ";" ++ f
    v := r.1
    log := acc.log ++ handleReadFileError r.2 }

def filesLoop : FilesAcc → List String → FilesAcc
  | acc, [] => acc
  | acc, f :: rest => filesLoop (filesStep acc f) rest

/-- `NewFilesContainer`: seed the base store from the first file (errors
turn into warnings), merge every further file on top (errors turn into
warnings), and with two or more files log "Loaded Config" and arm the
watch.  Returns the container together with the emitted log. -/
def NewFilesContainer (l : Nat) (fs : Fs) (configFiles : List String) :
    Container × List LogEntry :=
  match configFiles with
  | [] => (initContainer l fs, [])
  | f0 :: rest =>
      let r := ((viperNew fs).setConfigFile f0).readInConfig
      let log0 := handleReadFileError r.2
      match rest with
      | [] =>
          ({ ID := f0, viper := some r.1, logger := l, observers := [] }, log0)
      | f1 :: rest2 =>
          let acc := filesLoop { id := f0, v := r.1, log := log0 } (f1 :: rest2)
          ({ ID := acc.id
             viper := some acc.v.watchConfigArm
             logger := l
             observers := [] },
           acc.log ++ [.info "Loaded Config"])

/-- Accumulator for the loop over `configReaders[1:]`. -/
structure ReadersAcc where
  id : String
  v : Viper
  log : List LogEntry

/-- One iteration of `NewReaderContainer`'s loop: extend the identity
with the reader's 1-based index and merge the reader in. -/
def readersStep (acc : ReadersAcc) (idx : Nat) (r : ReaderSrc) : ReadersAcc :=
  let res := acc.v.mergeConfig r
  { id := acc.id ++ ";" ++ toString idx
    v := res.1
    log := acc.log ++ handleReadFileError res.2 }

def readersLoop : ReadersAcc → Nat → List ReaderSrc → ReadersAcc
  | acc, _, [] => acc
  | acc, i, r :: rest => readersLoop (readersStep acc i r) (i + 1) rest

/-- The OS filesystem installed by `NewReaderContainer`
(`afero.NewOsFs()`): external; a reader container never consults it, so
its behavior is irrelevant to every theorem below. -/
def osFs : Fs :=
  { stat := fun _ => false
    read := fun _ => .error "not modelled" }

/-- `NewReaderContainer`: set the config format, read the first reader
as the base (errors turn into warnings), merge the rest on top (errors
turn into warnings); with two or more readers log "Loaded Config".  No
watch is ever armed on this path. -/
def NewReaderContainer (l : Nat) (format : String) (configReaders : List ReaderSrc) :
    Container × List LogEntry :=
  let v0 := (viperNew osFs).setConfigType format
  match configReaders with
  | [] => ({ ID := "", viper := some v0, logger := l, observers := [] }, [])
  | r0 :: rest =>
      let res := v0.readConfig r0
      let log0 := handleReadFileError res.2
      match rest with
      | [] =>
          ({ ID := "0", viper := some res.1, logger := l, observers := [] }, log0)
      | _ :: _ =>
          let acc := readersLoop { id := "0", v := res.1, log := log0 } 1 rest
          ({ ID := acc.id, viper := some acc.v, logger := l, observers := [] },
           acc.log ++ [.info "Loaded Config"])

/-! ## Loader entry points (`load.go`) -/

/-- Result of a loader call, mirroring Go's `(Containable, error)`
multiple return, plus the log emitted along the way. -/
structure LoadResult where
  container : Option Container
  err : Option GoError
  log : List LogEntry

/-- `Load`: keep the paths whose existence check succeeds; with no
survivor and empty config disallowed fail with `ErrNoFilesFound`;
otherwise build a files container from the survivors. -/
def Load (paths : List String) (fs : Fs) (l : Nat) (allowEmptyConfig : Bool) :
    LoadResult :=
  let dbg := [LogEntry.debug "Loading configuration"]
  let loadable := paths.filter fs.stat
  if !allowEmptyConfig && loadable.isEmpty then
    { container := none, err := some .noFilesFound, log := dbg }
  else
    let r := NewFilesContainer l fs loadable
    { container := some r.1, err := none, log := dbg ++ r.2 }

/-- The collection loop of `LoadEmbed`: read every named asset in order,
stopping at the first read failure (returning the failing path and its
underlying error). -/
def collectEmbedded (fs : EmbeddedFileReader) :
    List String → Except (String × String) (List ReaderSrc)
  | [] => .ok []
  | p :: rest =>
      match fs.readFile p with
      | .error e => .error (p, e)
      | .ok b =>
          match collectEmbedded fs rest with
          | .error pe => .error pe
          | .ok bs => .ok (b :: bs)

/-- `LoadEmbed`: read every embedded asset; a read failure aborts
immediately with a wrapped error naming the failing source and no
container; otherwise build a yaml reader container over the collected
byte readers. -/
def LoadEmbed (paths : List String) (fs : EmbeddedFileReader) (l : Nat) :
    LoadResult :=
  let dbg := [LogEntry.debug "Loading embedded configuration"]
  match collectEmbedded fs paths with
  | .error pe =>
      { container := none
        err := some (.wrapped ("failed to read embedded config file " ++ pe.1)
                       (.base pe.2))
        log := dbg }
  | .ok configs =>
      let r := NewReaderContainer l "yaml" configs
      { container := some r.1, err := none, log := dbg ++ r.2 }

/-! ## The notification round (`watchConfig`)

On a change event the handler creates one error channel and one wait
group, spawns one goroutine per observer — each calls
`o.Run(c, errs)` and then `wg.Done()` — and blocks in `wg.Wait()`.
The goroutines run concurrently, so execution is modelled as a small
interleaving semantics: a schedule repeatedly picks any still-pending
task; running a task records its invocation and counts the wait group
down.  `Run` followed by `Done` is one atomic step, which is harmless
here because observers are opaque and only the invocation multiset and
the join are observed. -/

/-- One observer invocation: which observer ran, the identity of the
container it was handed, and the error channel it was handed. -/
structure Invocation where
  observer : Observable
  target : String
  chan : Nat
deriving DecidableEq, Repr

/-- State of one notification round: tasks not yet run, invocations
performed, and the wait-group counter. -/
structure RoundState where
  pending : List Observable
  invoked : List Invocation
  wgCounter : Nat
deriving DecidableEq, Repr

/-- Round entry: snapshot the observer list, size the wait group to it
(`wg.Add(1)` once per spawned goroutine). -/
def startRound (obs : List Observable) : RoundState :=
  { pending := obs, invoked := [], wgCounter := obs.length }

/-- Scheduler step: run the i-th still-pending task (no effect on an
out-of-range pick): invoke its observer with the container and the
round's shared channel, then count the wait group down. -/
def runTask (cid : String) (ch : Nat) (s : RoundState) (i : Nat) : RoundState :=
  if h : i < s.pending.length then
    { pending := s.pending.eraseIdx i
      invoked := s.invoked ++ [{ observer := s.pending.get ⟨i, h⟩, target := cid, chan := ch }]
      wgCounter := s.wgCounter - 1 }
  else s

def runSched (cid : String) (ch : Nat) : RoundState → List Nat → RoundState
  | s, [] => s
  | s, i :: rest => runSched cid ch (runTask cid ch s i) rest

/-- `wg.Wait()` returns exactly in the states whose counter is zero. -/
def waitReturns (s : RoundState) : Bool := s.wgCounter == 0

/-! ## Merge lemmas -/

theorem ConfigForest.lookup_append (a b : ConfigForest) (k : String) :
    (a.append b).lookup k =
      match a.lookup k with
      | some t => some t
      | none => b.lookup k :=
  match a with
  | .nil => by simp [ConfigForest.append, ConfigForest.lookup]
  | .cons k1 t rest => by
      by_cases h : k1 = k <;>
        simp [ConfigForest.append, ConfigForest.lookup, h,
          ConfigForest.lookup_append rest b k]

theorem ConfigForest.lookup_mergeOver (f1 f2 : ConfigForest) (k : String) :
    (ConfigForest.mergeOver f1 f2).lookup k =
      match f1.lookup k with
      | some t =>
          some (match f2.lookup k with
                | some t2 => t.merge t2
                | none => t)
      | none => none :=
  match f1 with
  | .nil => by simp [ConfigForest.mergeOver, ConfigForest.lookup]
  | .cons k1 t rest => by
      by_cases h : k1 = k <;>
        simp [ConfigForest.mergeOver, ConfigForest.lookup, h,
          ConfigForest.lookup_mergeOver rest f2 k]

theorem ConfigForest.lookup_filterKeysNotIn (f2 f1 : ConfigForest) (k : String) :
    (f2.filterKeysNotIn f1).lookup k =
      if f1.hasKey k then none else f2.lookup k :=
  match f2 with
  | .nil => by simp [ConfigForest.filterKeysNotIn, ConfigForest.lookup]
  | .cons k2 t rest => by
      have ih := ConfigForest.lookup_filterKeysNotIn rest f1 k
      by_cases hk : k2 = k
      · subst hk
        by_cases h1 : f1.hasKey k2 <;>
          simp [ConfigForest.filterKeysNotIn, ConfigForest.lookup, h1, ih]
      · by_cases h1 : f1.hasKey k2 <;>
          simp [ConfigForest.filterKeysNotIn, ConfigForest.lookup, hk, h1, ih]

/-- Key-level description of the merged forest: keys of the earlier
forest are kept (deep-merged where the later forest also binds them),
keys only in the later forest are added. -/
theorem ConfigForest.lookup_mergeNode (f1 f2 : ConfigForest) (k : String) :
    ((ConfigForest.mergeOver f1 f2).append (f2.filterKeysNotIn f1)).lookup k =
      match f1.lookup k, f2.lookup k with
      | some t1, some t2 => some (t1.merge t2)
      | some t1, none => some t1
      | none, some t2 => some t2
      | none, none => none := by
  rw [ConfigForest.lookup_append, ConfigForest.lookup_mergeOver,
    ConfigForest.lookup_filterKeysNotIn]
  rcases h1 : f1.lookup k with _ | t1 <;> rcases h2 : f2.lookup k with _ | t2 <;>
    simp [ConfigForest.hasKey, h1, h2]

/-- A source that does not cover a path holds no leaf at it. -/
theorem ConfigTree.getPath_eq_none_of_covers_false (t : ConfigTree)
    (p : List String) (h : t.covers p = false) : t.getPath p = none := by
  induction p generalizing t with
  | nil => simp [ConfigTree.covers] at h
  | cons k p ih =>
      cases t with
      | leaf v => simp [ConfigTree.covers] at h
      | node f =>
          rcases hl : f.lookup k with _ | t2
          · simp [ConfigTree.getPath, hl]
          · simp only [ConfigTree.covers, hl] at h
            simp [ConfigTree.getPath, hl, ih t2 h]

/-- Merging in later source `t2` replaces exactly the paths it covers:
at covered paths the merged tree reads as `t2`, everywhere else as the
earlier tree `t1`. -/
theorem ConfigTree.getPath_merge (p : List String) (t1 t2 : ConfigTree) :
    (t1.merge t2).getPath p =
      if t2.covers p then t2.getPath p else t1.getPath p := by
  induction p generalizing t1 t2 with
  | nil =>
      cases t1 <;> cases t2 <;>
        simp [ConfigTree.merge, ConfigTree.covers, ConfigTree.getPath]
  | cons k p ih =>
      cases t2 with
      | leaf v =>
          cases t1 <;>
            simp [ConfigTree.merge, ConfigTree.covers, ConfigTree.getPath]
      | node f2 =>
          cases t1 with
          | leaf w =>
              rcases hl : f2.lookup k with _ | t2k
              · simp [ConfigTree.merge, ConfigTree.covers, ConfigTree.getPath, hl]
              · simp only [ConfigTree.merge, ConfigTree.covers, ConfigTree.getPath, hl]
                by_cases hc : t2k.covers p
                · simp [hc]
                · simp only [Bool.not_eq_true] at hc
                  simp [hc, ConfigTree.getPath_eq_none_of_covers_false t2k p hc]
          | node f1 =>
              simp only [ConfigTree.merge, ConfigTree.getPath, ConfigTree.covers,
                ConfigForest.lookup_mergeNode]
              rcases h1 : f1.lookup k with _ | t1k <;>
                rcases h2 : f2.lookup k with _ | t2k
              · simp
              · by_cases hc : t2k.covers p
                · simp [hc]
                · simp only [Bool.not_eq_true] at hc
                  simp [hc, ConfigTree.getPath_eq_none_of_covers_false t2k p hc]
              · simp
              · simp [ih]

/-- The fold of an ordered source list reads, at every path, as the
last source covering that path, and as the base below all of them at
paths no source covers. -/
theorem ConfigTree.getPath_mergeAll (ts : List ConfigTree) (base : ConfigTree)
    (p : List String) :
    (mergeAll base ts).getPath p =
      match lastCovering p ts with
      | some t => t.getPath p
      | none => base.getPath p := by
  induction ts generalizing base with
  | nil => simp [mergeAll, lastCovering, List.foldl]
  | cons t ts ih =>
      show (mergeAll (base.merge t) ts).getPath p = _
      rw [ih]
      rcases hl : lastCovering p ts with _ | u
      · simp only [lastCovering, hl]
        rw [ConfigTree.getPath_merge]
        by_cases hc : t.covers p <;> simp [hc]
      · simp [lastCovering, hl]

/-! ## Loader-loop characterization -/

theorem ConfigForest.filterKeysNotIn_nil (f : ConfigForest) :
    f.filterKeysNotIn .nil = f :=
  match f with
  | .nil => rfl
  | .cons k t rest => by
      simp [ConfigForest.filterKeysNotIn, ConfigForest.hasKey, ConfigForest.lookup,
        ConfigForest.filterKeysNotIn_nil rest]

/-- Merging any source into the empty store yields that source. -/
theorem emptyTree_merge (t : ConfigTree) : emptyTree.merge t = t := by
  cases t with
  | leaf v => rfl
  | node f =>
      show ConfigTree.node ((ConfigForest.mergeOver .nil f).append (f.filterKeysNotIn .nil)) = _
      simp [ConfigForest.mergeOver, ConfigForest.append, ConfigForest.filterKeysNotIn_nil]

/-- What one source contributes to the store: merged in when its read
succeeds, nothing when its read fails (the store keeps its data). -/
def stepTree (fs : Fs) (cfg : ConfigTree) (f : String) : ConfigTree :=
  match fs.read f with
  | .ok t => cfg.merge t
  | .error _ => cfg

/-- Whether reading and parsing the file fails. -/
def readFails (fs : Fs) (f : String) : Bool :=
  match fs.read f with
  | .ok _ => false
  | .error _ => true

def isWarn : LogEntry → Bool
  | .warn _ => true
  | _ => false

def countWarn (log : List LogEntry) : Nat := (log.filter isWarn).length

theorem Viper.setFile_mergeInConfig (v : Viper) (f : String) :
    (v.setConfigFile f).mergeInConfig =
      ({ v with configFile := some f, config := stepTree v.fs v.config f },
       match v.fs.read f with
       | .ok _ => none
       | .error e => some e) := by
  rcases h : v.fs.read f <;>
    simp [Viper.setConfigFile, Viper.mergeInConfig, stepTree, h]

theorem Viper.setFile_readInConfig (v : Viper) (f : String) :
    (v.setConfigFile f).readInConfig =
      ({ v with
          configFile := some f
          config := match v.fs.read f with
                    | .ok t => t
                    | .error _ => v.config },
       match v.fs.read f with
       | .ok _ => none
       | .error e => some e) := by
  rcases h : v.fs.read f <;>
    simp [Viper.setConfigFile, Viper.readInConfig, h]

theorem countWarn_append (a b : List LogEntry) :
    countWarn (a ++ b) = countWarn a + countWarn b := by
  simp [countWarn]

theorem countWarn_handleReadFileError (fs : Fs) (f : String) :
    countWarn (handleReadFileError
        (match fs.read f with
         | .ok _ => none
         | .error e => some e)) =
      if readFails fs f then 1 else 0 := by
  rcases h : fs.read f <;>
    simp [handleReadFileError, countWarn, isWarn, readFails, h]

theorem filesStep_eq (acc : FilesAcc) (f : String) :
    filesStep acc f =
      { id := acc.id ++ ";" ++ f
        v := { acc.v with
                configFile := some f
                config := stepTree acc.v.fs acc.v.config f }
        log := acc.log ++ handleReadFileError
          (match acc.v.fs.read f with
           | .ok _ => none
           | .error e => some e) } := by
  simp [filesStep, Viper.setFile_mergeInConfig]

theorem filesLoop_fs (files : List String) (acc : FilesAcc) :
    (filesLoop acc files).v.fs = acc.v.fs := by
  induction files generalizing acc with
  | nil => rfl
  | cons f rest ih =>
      rw [filesLoop, ih, filesStep_eq]

theorem filesLoop_watching (files : List String) (acc : FilesAcc) :
    (filesLoop acc files).v.watching = acc.v.watching := by
  induction files generalizing acc with
  | nil => rfl
  | cons f rest ih =>
      rw [filesLoop, ih, filesStep_eq]

/-- The settings tree built by the subsequent-files loop is the fold of
per-file contributions. -/
theorem filesLoop_config (files : List String) (acc : FilesAcc) :
    (filesLoop acc files).v.config =
      files.foldl (stepTree acc.v.fs) acc.v.config := by
  induction files generalizing acc with
  | nil => rfl
  | cons f rest ih =>
      rw [filesLoop, ih, filesStep_eq, List.foldl_cons]

/-- The configured file after the loop is the last file visited. -/
theorem filesLoop_configFile (files : List String) (acc : FilesAcc) :
    (filesLoop acc files).v.configFile =
      files.foldl (fun _ f => some f) acc.v.configFile := by
  induction files generalizing acc with
  | nil => rfl
  | cons f rest ih =>
      rw [filesLoop, ih, filesStep_eq, List.foldl_cons]

/-- Each file whose read fails contributes exactly one warning. -/
theorem filesLoop_countWarn (files : List String) (acc : FilesAcc) :
    countWarn (filesLoop acc files).log =
      countWarn acc.log + (files.filter (readFails acc.v.fs)).length := by
  induction files generalizing acc with
  | nil => simp [filesLoop]
  | cons f rest ih =>
      rw [filesLoop, ih, filesStep_eq]
      simp only [countWarn_append, countWarn_handleReadFileError]
      rcases h : acc.v.fs.read f with e | t
      · simp [readFails, h, List.filter_cons]
        omega
      · simp [readFails, h, List.filter_cons]

/-- Watch-armed flag of a container's store (false on a nil store). -/
def Container.watchingOf (c : Container) : Bool :=
  match c.viper with
  | some v => v.watching
  | none => false

/-- Path whose change events the container's store subscribes to. -/
def Container.watchTargetOf (c : Container) : Option String :=
  match c.viper with
  | some v => v.watchTarget
  | none => none

/-- The settings tree a files container ends up with: the in-order fold
of per-file contributions over the empty store, where a file whose read
fails contributes nothing. -/
theorem NewFilesContainer_config (l : Nat) (fs : Fs) (files : List String) :
    ((NewFilesContainer l fs files).1).configOf =
      files.foldl (stepTree fs) emptyTree := by
  match files with
  | [] => rfl
  | [f0] =>
      simp only [NewFilesContainer, Viper.setFile_readInConfig, Container.configOf]
      rcases h : fs.read f0 with e | t <;>
        simp [stepTree, h, viperNew, emptyTree_merge]
  | f0 :: f1 :: rest =>
      rcases h : fs.read f0 with e | t <;>
        simp only [NewFilesContainer, Viper.setFile_readInConfig, Container.configOf,
          Viper.watchConfigArm, viperNew, h] <;>
        rw [filesLoop_config, List.foldl_cons] <;>
        simp [stepTree, h, emptyTree_merge]

/-- Every file of a files container whose read or parse fails produces
exactly one warning in the log (and nothing else does). -/
theorem NewFilesContainer_countWarn (l : Nat) (fs : Fs) (files : List String) :
    countWarn (NewFilesContainer l fs files).2 =
      (files.filter (readFails fs)).length := by
  match files with
  | [] => rfl
  | [f0] =>
      simp only [NewFilesContainer, Viper.setFile_readInConfig]
      rcases h : fs.read f0 with e | t <;>
        simp [handleReadFileError, countWarn, isWarn, readFails, h,
          List.filter_cons, viperNew]
  | f0 :: f1 :: rest =>
      rcases h : fs.read f0 with e | t
      · simp only [NewFilesContainer, Viper.setFile_readInConfig, viperNew, h]
        rw [countWarn_append, filesLoop_countWarn]
        simp [handleReadFileError, countWarn, isWarn, readFails, h,
          List.filter_cons]
        omega
      · simp only [NewFilesContainer, Viper.setFile_readInConfig, viperNew, h]
        rw [countWarn_append, filesLoop_countWarn]
        simp [handleReadFileError, countWarn, isWarn, readFails, h,
          List.filter_cons]

/-- The watch is armed exactly on two or more files, and the store of a
files container is never nil. -/
theorem NewFilesContainer_watching (l : Nat) (fs : Fs) (files : List String) :
    ((NewFilesContainer l fs files).1).watchingOf = decide (2 ≤ files.length) ∧
      (((NewFilesContainer l fs files).1).viper).isSome := by
  match files with
  | [] => exact ⟨rfl, rfl⟩
  | [f0] =>
      simp only [NewFilesContainer, Viper.setFile_readInConfig]
      rcases h : fs.read f0 with e | t <;>
        simp [Container.watchingOf, viperNew, h]
  | f0 :: f1 :: rest =>
      simp only [NewFilesContainer, Container.watchingOf, Viper.watchConfigArm]
      simp

/-- With two or more files the armed watch targets the file configured
last, i.e. the final element of the list. -/
theorem NewFilesContainer_watchTarget (l : Nat) (fs : Fs) (f0 f1 : String)
    (rest : List String) :
    ((NewFilesContainer l fs (f0 :: f1 :: rest)).1).watchTargetOf =
      (f1 :: rest).foldl (fun _ f => some f) (some f1) := by
  simp only [NewFilesContainer, Container.watchTargetOf, Viper.watchConfigArm]
  have hcf := filesLoop_configFile (f1 :: rest)
    { id := f0
      v := ((viperNew fs).setConfigFile f0).readInConfig.1
      log := handleReadFileError ((viperNew fs).setConfigFile f0).readInConfig.2 }
  simp only [List.foldl_cons] at hcf ⊢
  rw [hcf]

/-- A fold that keeps the latest element computes the last element. -/
theorem foldl_latest_eq_getLast (xs : List String) :
    ∀ x, xs.foldl (fun _ f => some f) (some x) = (x :: xs).getLast? := by
  induction xs with
  | nil => intro x; rfl
  | cons y ys ih =>
      intro x
      rw [List.foldl_cons, ih y, List.getLast?_cons_cons]

theorem readersStep_watching (acc : ReadersAcc) (i : Nat) (r : ReaderSrc) :
    (readersStep acc i r).v.watching = acc.v.watching := by
  rcases r <;> simp [readersStep, Viper.mergeConfig]

theorem readersLoop_watching (rs : List ReaderSrc) (acc : ReadersAcc) (i : Nat) :
    (readersLoop acc i rs).v.watching = acc.v.watching := by
  induction rs generalizing acc i with
  | nil => rfl
  | cons r rest ih =>
      rw [readersLoop, ih, readersStep_watching]

/-- A reader container never arms the watch and always carries a store. -/
theorem NewReaderContainer_watching (l : Nat) (format : String)
    (rs : List ReaderSrc) :
    ((NewReaderContainer l format rs).1).watchingOf = false ∧
      (((NewReaderContainer l format rs).1).viper).isSome := by
  match rs with
  | [] => exact ⟨rfl, rfl⟩
  | [r0] =>
      rcases r0 <;>
        simp [NewReaderContainer, Container.watchingOf, Viper.readConfig,
          Viper.setConfigType, viperNew]
  | r0 :: r1 :: rest =>
      simp only [NewReaderContainer, Container.watchingOf]
      rw [readersLoop_watching]
      rcases r0 <;>
        simp [Viper.readConfig, Viper.setConfigType, viperNew]

/-! ## Notification-round lemmas -/

theorem perm_get_cons_eraseIdx (l : List Observable) (i : Nat) (h : i < l.length) :
    l.Perm (l.get ⟨i, h⟩ :: l.eraseIdx i) := by
  induction l generalizing i with
  | nil => simp at h
  | cons a t ih =>
      cases i with
      | zero => simp [List.eraseIdx]
      | succ j =>
          have hj : j < t.length := by simpa using h
          have step1 : (a :: t).Perm (a :: (t.get ⟨j, hj⟩ :: t.eraseIdx j)) :=
            (ih j hj).cons a
          have step2 : (a :: (t.get ⟨j, hj⟩ :: t.eraseIdx j)).Perm
              (t.get ⟨j, hj⟩ :: a :: t.eraseIdx j) := List.Perm.swap _ _ _
          exact step1.trans step2

/-- Invariant of a round started on snapshot `obs`: the wait-group
counter equals the number of still-pending tasks, the pending tasks and
the already-run observers together are a permutation of the snapshot,
and every invocation so far was handed the container and the round's
shared channel. -/
def RoundInv (obs : List Observable) (cid : String) (ch : Nat)
    (s : RoundState) : Prop :=
  s.wgCounter = s.pending.length ∧
    (s.pending ++ s.invoked.map Invocation.observer).Perm obs ∧
    ∀ inv ∈ s.invoked, inv.target = cid ∧ inv.chan = ch

theorem roundInv_start (obs : List Observable) (cid : String) (ch : Nat) :
    RoundInv obs cid ch (startRound obs) := by
  refine ⟨rfl, by simp [startRound], by simp [startRound]⟩

theorem roundInv_runTask (obs : List Observable) (cid : String) (ch : Nat)
    (s : RoundState) (i : Nat) (hs : RoundInv obs cid ch s) :
    RoundInv obs cid ch (runTask cid ch s i) := by
  rcases hs with ⟨hcnt, hperm, hinv⟩
  by_cases h : i < s.pending.length
  · simp only [runTask, dif_pos h]
    refine ⟨?_, ?_, ?_⟩
    · simp [List.length_eraseIdx_of_lt h, hcnt]
    · have hview := perm_get_cons_eraseIdx s.pending i h
      simp only [List.map_append, List.map_cons, List.map_nil]
      refine List.Perm.trans ?_ hperm
      refine List.Perm.trans ?_
        (List.Perm.append_right (s.invoked.map Invocation.observer) hview.symm)
      have hmid : ((s.pending.eraseIdx i ++ s.invoked.map Invocation.observer) ++
            (s.pending.get ⟨i, h⟩ :: [])).Perm
          (s.pending.get ⟨i, h⟩ ::
            ((s.pending.eraseIdx i ++ s.invoked.map Invocation.observer) ++ [])) :=
        List.perm_middle
      simpa using hmid
    · intro inv hmem
      simp only [List.mem_append, List.mem_singleton] at hmem
      rcases hmem with hold | hnew
      · exact hinv inv hold
      · subst hnew
        exact ⟨rfl, rfl⟩
  · simp only [runTask, dif_neg h]
    exact ⟨hcnt, hperm, hinv⟩

theorem roundInv_runSched (obs : List Observable) (cid : String) (ch : Nat)
    (sched : List Nat) (s : RoundState) (hs : RoundInv obs cid ch s) :
    RoundInv obs cid ch (runSched cid ch s sched) := by
  induction sched generalizing s with
  | nil => exact hs
  | cons i rest ih =>
      exact ih (runTask cid ch s i) (roundInv_runTask obs cid ch s i hs)

/-! ## Remaining support lemmas -/

/-- A source holding a leaf at a path covers that path. -/
theorem ConfigTree.covers_of_getPath_some (t : ConfigTree) (p : List String)
    (v : String) (h : t.getPath p = some v) : t.covers p = true := by
  by_cases hc : t.covers p
  · exact hc
  · rw [ConfigTree.getPath_eq_none_of_covers_false t p (by simpa using hc)] at h
    cases h

/-- The empty store holds no leaf at any path. -/
theorem getPath_emptyTree (p : List String) : emptyTree.getPath p = none := by
  cases p <;> simp [emptyTree, ConfigTree.getPath, ConfigForest.lookup]

/-- When every file of the list reads successfully as the corresponding
tree, the per-file contribution fold is the merge fold of the trees. -/
theorem foldl_stepTree_of_reads (fs : Fs) :
    ∀ (files : List String) (trees : List ConfigTree) (base : ConfigTree),
      files.map fs.read = trees.map Except.ok →
      files.foldl (stepTree fs) base = mergeAll base trees := by
  intro files
  induction files with
  | nil =>
      intro trees base h
      cases trees with
      | nil => rfl
      | cons t ts => simp at h
  | cons f rest ih =>
      intro trees base h
      cases trees with
      | nil => simp at h
      | cons t ts =>
          simp only [List.map_cons, List.cons.injEq] at h
          rcases h with ⟨hf, hrest⟩
          show List.foldl (stepTree fs) (stepTree fs base f) rest = _
          rw [ih ts (stepTree fs base f) hrest]
          simp [mergeAll, stepTree, hf]

/-- If any named embedded asset fails to read, the collection loop stops
at such an asset with its path and underlying error. -/
theorem collectEmbedded_error (fs : EmbeddedFileReader) (paths : List String)
    (hfail : ∃ p ∈ paths, ∃ e, fs.readFile p = .error e) :
    ∃ p e, p ∈ paths ∧ fs.readFile p = .error e ∧
      collectEmbedded fs paths = .error (p, e) := by
  induction paths with
  | nil => simp at hfail
  | cons q rest ih =>
      rcases hq : fs.readFile q with e | b
      · exact ⟨q, e, List.mem_cons_self q rest, hq, by simp [collectEmbedded, hq]⟩
      · have hfail2 : ∃ p ∈ rest, ∃ e, fs.readFile p = .error e := by
          rcases hfail with ⟨p, hmem, e, he⟩
          rcases List.mem_cons.mp hmem with hpq | hmem2
          · subst hpq; rw [hq] at he; cases he
          · exact ⟨p, hmem2, e, he⟩
        rcases ih hfail2 with ⟨p, e, hmem, he, hcoll⟩
        exact ⟨p, e, List.mem_cons_of_mem q hmem, he, by
          simp [collectEmbedded, hq, hcoll]⟩

/-- No survivor of the existence filter means every path fails it. -/
theorem filter_stat_isEmpty_iff (fs : Fs) (paths : List String) :
    (paths.filter fs.stat).isEmpty = true ↔ ∀ p ∈ paths, fs.stat p = false := by
  rw [List.isEmpty_iff, List.filter_eq_nil_iff]
  simp

/-! ## Claims -/

/-- C1: `Load(paths, fs, logger, allowEmpty)` returns the
`ErrNoFilesFound` error and no container if and only if `allowEmpty` is
false and no path passes the existence check; in every other case
(including an empty path list with `allowEmpty` true) it returns a
non-nil container and no error. -/
theorem load_noSources_iff (paths : List String) (fs : Fs) (l : Nat)
    (allowEmptyConfig : Bool) :
    (((Load paths fs l allowEmptyConfig).err = some .noFilesFound ∧
        (Load paths fs l allowEmptyConfig).container = none) ↔
      (allowEmptyConfig = false ∧ ∀ p ∈ paths, fs.stat p = false)) ∧
      ((allowEmptyConfig = true ∨ ∃ p ∈ paths, fs.stat p = true) →
        ((Load paths fs l allowEmptyConfig).container).isSome ∧
          (Load paths fs l allowEmptyConfig).err = none) := by
  by_cases hc : (!allowEmptyConfig && (paths.filter fs.stat).isEmpty) = true
  · have hload : Load paths fs l allowEmptyConfig =
        { container := none, err := some .noFilesFound
          log := [LogEntry.debug "Loading configuration"] } := by
      simp only [Load, hc, if_pos]
    have hc2 : allowEmptyConfig = false ∧
        (paths.filter fs.stat).isEmpty = true := by
      simpa [Bool.not_eq_true'] using hc
    rcases hc2 with ⟨hae2, hemp⟩
    have hstat := (filter_stat_isEmpty_iff fs paths).mp hemp
    constructor
    · rw [hload]
      constructor
      · intro _
        exact ⟨hae2, hstat⟩
      · intro _
        exact ⟨rfl, rfl⟩
    · intro hother
      rcases hother with hae3 | ⟨p, hmem, hp⟩
      · rw [hae2] at hae3; cases hae3
      · rw [hstat p hmem] at hp; cases hp
  · have hload : Load paths fs l allowEmptyConfig =
        { container := some (NewFilesContainer l fs (paths.filter fs.stat)).1
          err := none
          log := [LogEntry.debug "Loading configuration"] ++
            (NewFilesContainer l fs (paths.filter fs.stat)).2 } := by
      simp only [Load, hc, if_neg]
      simp at hc
      simp [hc]
    constructor
    · rw [hload]
      constructor
      · intro hcase
        cases hcase.1
      · intro hboth
        exfalso
        apply hc
        rw [hboth.1]
        simp only [Bool.not_false, Bool.true_and]
        exact (filter_stat_isEmpty_iff fs paths).mpr hboth.2
    · intro _
      rw [hload]
      exact ⟨rfl, rfl⟩

theorem load_noSources_iff_witness :
    ((true = true ∨ ∃ p ∈ (["a.yml"] : List String),
        Fs.stat { stat := fun _ => false, read := fun _ => .error "missing" } p = true) →
      ((Load ["a.yml"] { stat := fun _ => false, read := fun _ => .error "missing" }
          0 true).container).isSome ∧
        (Load ["a.yml"] { stat := fun _ => false, read := fun _ => .error "missing" }
          0 true).err = none) ∧
    ((Load ["a.yml"] { stat := fun _ => false, read := fun _ => .error "missing" }
        0 true).container).isSome :=
  ⟨(load_noSources_iff ["a.yml"]
      { stat := fun _ => false, read := fun _ => .error "missing" } 0 true).2,
   ((load_noSources_iff ["a.yml"]
      { stat := fun _ => false, read := fun _ => .error "missing" } 0 true).2
      (Or.inl rfl)).1⟩

/-- C2: for sources loaded in order (all reading successfully), the
merged result is a key-by-key deep merge: a later source's binding wins
at every path it covers, every path no later source touches keeps the
earlier value (non-conflicting sibling keys survive), and the settings
tree of the files container reads, at every path, as the last source
covering that path. -/
theorem merge_last_source_wins (l : Nat) (fs : Fs) (files : List String)
    (trees : List ConfigTree) (p : List String)
    (hread : files.map fs.read = trees.map Except.ok) :
    (∀ (tA tB : ConfigTree) (v : String),
        tB.getPath p = some v → (tA.merge tB).getPath p = some v) ∧
      (∀ tA tB : ConfigTree,
        tB.covers p = false → (tA.merge tB).getPath p = tA.getPath p) ∧
      (((NewFilesContainer l fs files).1).configOf.getPath p =
        match lastCovering p trees with
        | some t => t.getPath p
        | none => none) := by
  refine ⟨?_, ?_, ?_⟩
  · intro tA tB v hv
    rw [ConfigTree.getPath_merge, if_pos (ConfigTree.covers_of_getPath_some tB p v hv)]
    exact hv
  · intro tA tB hcov
    rw [ConfigTree.getPath_merge, hcov]
    simp
  · rw [NewFilesContainer_config, foldl_stepTree_of_reads fs files trees emptyTree hread,
      ConfigTree.getPath_mergeAll]
    rcases lastCovering p trees with _ | t
    · simp [getPath_emptyTree]
    · simp

/-- First source of the spec's merge example (used by the C2 witness):
yaml.key = "value", yaml.bool = true. -/
def treeA : ConfigTree :=
  .node (.cons "yaml"
    (.node (.cons "key" (.leaf "value")
      (.cons "bool" (.leaf "true") .nil))) .nil)

/-- Second source of the spec's merge example (used by the C2 witness):
yaml.key = "value2", yaml.more.key2 = "secondfile". -/
def treeB : ConfigTree :=
  .node (.cons "yaml"
    (.node (.cons "key" (.leaf "value2")
      (.cons "more" (.node (.cons "key2" (.leaf "secondfile") .nil))
        .nil))) .nil)

/-- Two-file filesystem for the C2 witness. -/
def fsMergeExample : Fs :=
  { stat := fun _ => true
    read := fun f => if f = "first.yml" then .ok treeA else .ok treeB }

theorem merge_last_source_wins_witness :
    (["first.yml", "second.yml"].map fsMergeExample.read =
        [treeA, treeB].map Except.ok) ∧
      ((NewFilesContainer 0 fsMergeExample
          ["first.yml", "second.yml"]).1).configOf.getPath ["yaml", "key"] =
        some "value2" ∧
      ((NewFilesContainer 0 fsMergeExample
          ["first.yml", "second.yml"]).1).configOf.getPath ["yaml", "bool"] =
        some "true" := by
  refine ⟨by simp [fsMergeExample], ?_, ?_⟩
  · have h := (merge_last_source_wins 0 fsMergeExample
      ["first.yml", "second.yml"] [treeA, treeB] ["yaml", "key"]
      (by simp [fsMergeExample])).2.2
    rw [h]
    rfl
  · have h := (merge_last_source_wins 0 fsMergeExample
      ["first.yml", "second.yml"] [treeA, treeB] ["yaml", "bool"]
      (by simp [fsMergeExample])).2.2
    rw [h]
    rfl

/-- C3: for a container with N registered observers, one
configuration-change event (one notification round) yields, under every
task schedule that lets the wait group reach zero, exactly N observer
invocations — one per observer in the snapshot, each handed the
container and the round's shared error channel — and `wg.Wait()` does
not return before all N invocations are recorded. -/
theorem notification_round_complete (c : Container) (ch : Nat) (sched : List Nat)
    (hdone : waitReturns (runSched c.ID ch (startRound c.observers) sched) = true) :
    (runSched c.ID ch (startRound c.observers) sched).invoked.length =
        c.observers.length ∧
      ((runSched c.ID ch (startRound c.observers) sched).invoked.map
          Invocation.observer).Perm c.observers ∧
      ∀ inv ∈ (runSched c.ID ch (startRound c.observers) sched).invoked,
        inv.target = c.ID ∧ inv.chan = ch := by
  have hinv := roundInv_runSched c.observers c.ID ch sched (startRound c.observers)
    (roundInv_start c.observers c.ID ch)
  rcases hinv with ⟨hcnt, hperm, hprops⟩
  have hzero : (runSched c.ID ch (startRound c.observers) sched).wgCounter = 0 := by
    simpa [waitReturns] using hdone
  have hpend : (runSched c.ID ch (startRound c.observers) sched).pending = [] := by
    have := hcnt
    rw [hzero] at this
    exact (List.length_eq_zero.mp this.symm)
  rw [hpend] at hperm
  simp only [List.nil_append] at hperm
  exact ⟨by rw [← hperm.length_eq, List.length_map], hperm, hprops⟩

theorem notification_round_complete_witness :
    waitReturns (runSched "" 0
        (startRound (((NewReaderContainer 7 "yaml" []).1.addObserver 3).addObserver
          4).observers) [1, 0]) = true ∧
      (runSched "" 0
        (startRound (((NewReaderContainer 7 "yaml" []).1.addObserver 3).addObserver
          4).observers) [1, 0]).invoked.length =
        (((NewReaderContainer 7 "yaml" []).1.addObserver 3).addObserver
          4).observers.length := by
  refine ⟨by decide, ?_⟩
  have h := notification_round_complete
    (((NewReaderContainer 7 "yaml" []).1.addObserver 3).addObserver 4) 0 [1, 0]
    (by decide)
  exact h.1

/-- C4: every constructed container carries a non-nil settings store;
`Sub(key)` keeps the store non-nil, and on a nonexistent key it yields a
non-nil, empty, independent store together with the same parent logger
and a fresh empty observer list. -/
theorem store_nonNil_and_sub_missing_empty :
    (∀ (l : Nat) (fs : Fs) (files : List String),
        (((NewFilesContainer l fs files).1).viper).isSome) ∧
      (∀ (l : Nat) (format : String) (rs : List ReaderSrc),
        (((NewReaderContainer l format rs).1).viper).isSome) ∧
      (∀ (c : Container) (key : String),
        ((c.viper).isSome) → (((c.sub key).viper).isSome)) ∧
      (∀ (c : Container) (v : Viper) (key : String),
        c.viper = some v →
        v.config.getSub (parseKey key) = none →
        (c.sub key).viper = some (viperNew v.fs) ∧
          (viperNew v.fs).config = emptyTree ∧
          (c.sub key).logger = c.logger ∧
          (c.sub key).observers = []) := by
  refine ⟨?_, ?_, ?_, ?_⟩
  · intro l fs files
    exact (NewFilesContainer_watching l fs files).2
  · intro l format rs
    exact (NewReaderContainer_watching l format rs).2
  · intro c key h
    rcases hv : c.viper with _ | v
    · rw [hv] at h; cases h
    · simp [Container.sub, hv]
  · intro c v key hv hnone
    refine ⟨?_, rfl, rfl, rfl⟩
    simp [Container.sub, hv, Viper.sub, hnone]

theorem store_nonNil_and_sub_missing_empty_witness :
    ((NewReaderContainer 5 "yaml" []).1.viper =
        some ((viperNew osFs).setConfigType "yaml") ∧
      ((viperNew osFs).setConfigType "yaml").config.getSub
        (parseKey "missing") = none) ∧
      (((NewReaderContainer 5 "yaml" []).1.sub "missing").viper =
        some (viperNew ((viperNew osFs).setConfigType "yaml").fs) ∧
      ((NewReaderContainer 5 "yaml" []).1.sub "missing").observers = []) :=
  ⟨⟨rfl, rfl⟩,
   ⟨(store_nonNil_and_sub_missing_empty.2.2.2
       (NewReaderContainer 5 "yaml" []).1
       ((viperNew osFs).setConfigType "yaml") "missing" rfl rfl).1,
    (store_nonNil_and_sub_missing_empty.2.2.2
       (NewReaderContainer 5 "yaml" []).1
       ((viperNew osFs).setConfigType "yaml") "missing" rfl rfl).2.2.2⟩⟩

/-- C5: if reading any embedded source fails, `LoadEmbed` returns no
container at all together with an error wrapping the underlying error
and naming the failing source. -/
theorem loadEmbed_read_failure_fatal (paths : List String)
    (fs : EmbeddedFileReader) (l : Nat)
    (hfail : ∃ p ∈ paths, ∃ e, fs.readFile p = .error e) :
    (LoadEmbed paths fs l).container = none ∧
      ∃ p e, p ∈ paths ∧ fs.readFile p = .error e ∧
        (LoadEmbed paths fs l).err =
          some (.wrapped ("failed to read embedded config file " ++ p)
            (.base e)) := by
  rcases collectEmbedded_error fs paths hfail with ⟨p, e, hmem, he, hcoll⟩
  refine ⟨by simp [LoadEmbed, hcoll], p, e, hmem, he, by simp [LoadEmbed, hcoll]⟩

theorem loadEmbed_read_failure_fatal_witness :
    (∃ p ∈ (["app.yaml"] : List String), ∃ e,
        EmbeddedFileReader.readFile { readFile := fun _ => .error "boom" } p =
          .error e) ∧
      (LoadEmbed ["app.yaml"] { readFile := fun _ => .error "boom" } 0).container =
        none :=
  ⟨⟨"app.yaml", by simp, "boom", rfl⟩,
   (loadEmbed_read_failure_fatal ["app.yaml"]
      { readFile := fun _ => .error "boom" } 0
      ⟨"app.yaml", by simp, "boom", rfl⟩).1⟩

/-- C6: for file sources that passed the existence filter, read and
parse failures are never surfaced as errors: each failing file only adds
one warning and contributes nothing to the settings tree (the base store
stays at defaults when the first file fails), and `Load` still returns a
container with no error. -/
theorem file_read_failures_nonfatal (l : Nat) (fs : Fs) (files paths : List String)
    (ae : Bool) (hne : paths.filter fs.stat ≠ []) :
    ((NewFilesContainer l fs files).1).configOf =
        files.foldl (stepTree fs) emptyTree ∧
      countWarn (NewFilesContainer l fs files).2 =
        (files.filter (readFails fs)).length ∧
      (Load paths fs l ae).err = none ∧
      ((Load paths fs l ae).container).isSome := by
  refine ⟨NewFilesContainer_config l fs files,
    NewFilesContainer_countWarn l fs files, ?_, ?_⟩
  all_goals
    have hemp : (paths.filter fs.stat).isEmpty = false := by
      rcases h : (paths.filter fs.stat).isEmpty
      · rfl
      · exact absurd (List.isEmpty_iff.mp h) hne
    simp [Load, hemp]

theorem file_read_failures_nonfatal_witness :
    ((["a.yml"] : List String).filter
        (Fs.stat { stat := fun _ => true, read := fun _ => .error "bad" }) ≠ []) ∧
      (Load ["a.yml"] { stat := fun _ => true, read := fun _ => .error "bad" }
        0 false).err = none ∧
      countWarn (NewFilesContainer 0
        { stat := fun _ => true, read := fun _ => .error "bad" } ["a.yml"]).2 = 1 := by
  refine ⟨by decide, ?_, ?_⟩
  · exact (file_read_failures_nonfatal 0
      { stat := fun _ => true, read := fun _ => .error "bad" }
      ["a.yml"] ["a.yml"] false (by decide)).2.2.1
  · rw [(file_read_failures_nonfatal 0
      { stat := fun _ => true, read := fun _ => .error "bad" }
      ["a.yml"] ["a.yml"] false (by decide)).2.1]
    rfl

/-- C7 counterexample: loading the two file sources "a.yml" then
"b.yml" arms the watch, but the armed subscription targets "b.yml" —
the last-loaded path — and not the primary (first-loaded) "a.yml" the
claim names. -/
theorem watch_not_primary_counterexample :
    ((NewFilesContainer 0
        { stat := fun _ => true, read := fun _ => .ok emptyTree }
        ["a.yml", "b.yml"]).1).watchingOf = true ∧
      ((NewFilesContainer 0
        { stat := fun _ => true, read := fun _ => .ok emptyTree }
        ["a.yml", "b.yml"]).1).watchTargetOf = some "b.yml" ∧
      ¬ ((NewFilesContainer 0
        { stat := fun _ => true, read := fun _ => .ok emptyTree }
        ["a.yml", "b.yml"]).1).watchTargetOf = some "a.yml" := by
  refine ⟨rfl, rfl, ?_⟩
  intro h
  have hb : ("b.yml" : String) = "a.yml" := by
    have h2 : (some "b.yml" : Option String) = some "a.yml" := by
      rw [← h]
      rfl
    exact Option.some.inj h2
  exact absurd hb (by decide)

/-- C7 (amended): the watch is armed exactly when two or more file
sources were loaded, and its subscription targets the last-loaded file
path (the store's current config file at arming time); zero or one file
source, or readers, arm no watch. -/
theorem watch_armed_iff_two_files (l : Nat) (fs : Fs) (files : List String)
    (format : String) (rs : List ReaderSrc) :
    (((NewFilesContainer l fs files).1).watchingOf = true ↔ 2 ≤ files.length) ∧
      (∀ f0 f1 rest, files = f0 :: f1 :: rest →
        ((NewFilesContainer l fs files).1).watchTargetOf = files.getLast?) ∧
      ((NewReaderContainer l format rs).1).watchingOf = false := by
  refine ⟨?_, ?_, (NewReaderContainer_watching l format rs).1⟩
  · rw [(NewFilesContainer_watching l fs files).1]
    simp
  · intro f0 f1 rest hf
    subst hf
    rw [NewFilesContainer_watchTarget, foldl_latest_eq_getLast]
    simp [List.getLast?_cons_cons]

theorem watch_armed_iff_two_files_witness :
    ((NewFilesContainer 0
        { stat := fun _ => false, read := fun _ => .error "e" }
        ["a.yml", "b.yml"]).1).watchTargetOf =
      (["a.yml", "b.yml"] : List String).getLast? ∧
      ((NewFilesContainer 0
        { stat := fun _ => false, read := fun _ => .error "e" }
        ["a.yml", "b.yml"]).1).watchingOf = true :=
  ⟨(watch_armed_iff_two_files 0
      { stat := fun _ => false, read := fun _ => .error "e" }
      ["a.yml", "b.yml"] "yaml" []).2.1 "a.yml" "b.yml" [] rfl,
   (watch_armed_iff_two_files 0
      { stat := fun _ => false, read := fun _ => .error "e" }
      ["a.yml", "b.yml"] "yaml" []).1.mpr (by decide)⟩

/-- C8: `Sub(key)` derives its identity from the parent identity, "#"
and the key, and its observer list starts empty and stays independent of
the parent's: registering on the subtree gives it exactly its own
observers, registering on the parent only appends to the parent's list,
and a subtree taken after parent registration still starts empty. -/
theorem sub_identity_fresh_independent (c : Container) (key : String)
    (o : Observable) :
    (c.sub key).ID = c.ID ++ "#" ++ key ∧
      (c.sub key).observers = [] ∧
      ((c.sub key).addObserver o).observers = [o] ∧
      (c.addObserver o).observers = c.observers ++ [o] ∧
      (c.addObserver o).ID = c.ID ∧
      ((c.addObserver o).sub key).observers = [] :=
  ⟨rfl, rfl, rfl, rfl, rfl, rfl⟩

/-- C9: `ToJSON` returns the serialization of the full merged settings
tree, and a serialization failure is only logged: the call still returns
the empty string and no error escapes. -/
theorem toJSON_failure_logged_not_propagated (c : Container) (enc : JsonEncoder)
    (v : Viper) (hv : c.viper = some v) :
    (∀ s, enc.marshal v.config = .ok s → c.toJSON enc = (s, [])) ∧
      (∀ e, enc.marshal v.config = .error e →
        c.toJSON enc =
          ("", [.error ("unable to marshal config to YAML " ++ e)])) := by
  constructor
  · intro s hs
    simp [Container.toJSON, hv, hs]
  · intro e he
    simp [Container.toJSON, hv, he]

theorem toJSON_failure_logged_not_propagated_witness :
    (NewReaderContainer 3 "yaml" []).1.toJSON
        { marshal := fun _ => .error "boom" } =
      ("", [.error ("unable to marshal config to YAML " ++ "boom")]) :=
  (toJSON_failure_logged_not_propagated (NewReaderContainer 3 "yaml" []).1
    { marshal := fun _ => .error "boom" }
    ((viperNew osFs).setConfigType "yaml") rfl).2 "boom" rfl

/-- C10: `LoadEmbed` with an empty list of source names succeeds: no
error, and a non-nil container backed by a non-nil empty settings store
(there is no allowEmpty guard on the embedded path). -/
theorem loadEmbed_empty_paths_ok (fs : EmbeddedFileReader) (l : Nat) :
    (LoadEmbed [] fs l).err = none ∧
      ∃ c, (LoadEmbed [] fs l).container = some c ∧
        c.configOf = emptyTree ∧ ((c.viper).isSome) ∧ c.observers = [] :=
  ⟨rfl,
   { ID := ""
     viper := some ((viperNew osFs).setConfigType "yaml")
     logger := l
     observers := [] },
   rfl, rfl, rfl, rfl⟩

end Config




